import Mathlib

/-!
Verification of `schema.go` (package huma): JSON-schema generation from Go
types via reflection.  The Go source is shallowly embedded below:

* `GoType` / `Fields` model the fragment of `reflect.Type` the source uses:
  a type's kind, its element type (slice/array/pointer/map), its ordered
  field list (structs), and the identity comparisons against the package
  globals `timeType`, `ipType`, `uriType`.  `net.IP` is a named slice type,
  `time.Time` and `url.URL` are struct types, so the corresponding
  constructors carry those kinds.
* `Json` and `jsonUnmarshal` model `encoding/json.Unmarshal` into
  `interface{}` (RFC 8259 text).  JSON numbers are modelled exactly as
  scaled decimals (mantissa × 10^exponent) rather than as `float64`; no
  claim here depends on float rounding.
* `strconvAtoi` models `strconv.Atoi` (base-10, optional sign, 64-bit
  range check).
* `Schema`, `getTagValue`, `applyFieldTags`, `GenerateSchema` and
  `walkFields` embed the source's `Schema` struct, `getTagValue` and
  `GenerateSchema` (the per-field loop body of `GenerateSchema` is split
  into `applyFieldTags`/`walkFields` for structural recursion; the
  sequence of steps is the source's).  Pointer-valued / nilable Go fields
  (`*int`, `*Schema`, slices, maps, `interface{}`) become `Option`s, so
  "absent" (`nil`, omitted by `omitempty` encoding) and "present" stay
  distinguishable.  `map[string]*Schema` becomes an association list with
  key-replacing insertion (`insertProp`), keeping keys unique.
-/

namespace Huma

/-- The structural kind of a type, `reflect.Kind` restricted to the kinds
this source distinguishes (every kind in the source's `switch` plus a few
of the kinds that fall into its `default` branch). -/
inductive Kind : Type where
  | struct | map | slice | array | ptr
  | int | int8 | int16 | int32 | int64
  | uint | uint8 | uint16 | uint32 | uint64
  | float32 | float64 | bool | string
  | func | chan | interface_ | complex64 | complex128 | uintptr
deriving DecidableEq

/-- A struct tag, modelled as the key→value mapping `reflect.StructTag`
exposes through `Get`/`Lookup` (first binding of a key wins). -/
abbrev Tag := List (String × String)

mutual
/-- The fragment of `reflect.Type` used by `GenerateSchema`: kinds,
element types, struct fields, and the three special type identities
(`timeType` = `time.Time`, a struct; `uriType` = `url.URL`, a struct;
`ipType` = `net.IP`, a named byte-slice type — distinct from the unnamed
`[]byte`, which is `sliceTy uint8Ty`). -/
inductive GoType : Type where
  | timeTy
  | uriTy
  | ipTy
  | structTy (fields : Fields)
  | mapTy (key elem : GoType)
  | sliceTy (elem : GoType)
  | arrayTy (len : Nat) (elem : GoType)
  | ptrTy (elem : GoType)
  | intTy | int8Ty | int16Ty | int32Ty | int64Ty
  | uintTy | uint8Ty | uint16Ty | uint32Ty | uint64Ty
  | float32Ty | float64Ty
  | boolTy
  | stringTy
  | funcTy | chanTy | interfaceTy | complex64Ty | complex128Ty | uintptrTy

/-- A struct's ordered field list; each field carries its declared name,
its tag and its type (`reflect.StructField`). -/
inductive Fields : Type where
  | nil
  | cons (name : String) (tag : Tag) (ty : GoType) (rest : Fields)
end

/-- `reflect.Type.Kind()`. -/
def GoType.kind : GoType → Kind
  | .timeTy => .struct
  | .uriTy => .struct
  | .ipTy => .slice
  | .structTy _ => .struct
  | .mapTy _ _ => .map
  | .sliceTy _ => .slice
  | .arrayTy _ _ => .array
  | .ptrTy _ => .ptr
  | .intTy => .int
  | .int8Ty => .int8
  | .int16Ty => .int16
  | .int32Ty => .int32
  | .int64Ty => .int64
  | .uintTy => .uint
  | .uint8Ty => .uint8
  | .uint16Ty => .uint16
  | .uint32Ty => .uint32
  | .uint64Ty => .uint64
  | .float32Ty => .float32
  | .float64Ty => .float64
  | .boolTy => .bool
  | .stringTy => .string
  | .funcTy => .func
  | .chanTy => .chan
  | .interfaceTy => .interface_
  | .complex64Ty => .complex64
  | .complex128Ty => .complex128
  | .uintptrTy => .uintptr

/-- The package global `byteSliceType = reflect.TypeOf([]byte(nil))`:
the unnamed `[]byte` type (declared in the source but never consulted). -/
def byteSliceType : GoType := .sliceTy .uint8Ty

/-- The errors `GenerateSchema` can return: the `fmt.Errorf("unsupported
type %s from %s", t.Kind(), t)` of the `default` branch (carrying the kind
and the owning type), a `json.Unmarshal` syntax error, and a
`strconv.Atoi` parse error (carrying the offending text). -/
inductive Err : Type where
  | unsupportedType (kind : Kind) (ty : GoType)
  | jsonError (msg : String)
  | atoiError (input : String)

/-- An untyped JSON value, the model of what `json.Unmarshal` stores into
an `interface{}`: `nil`, `bool`, number, `string`, `[]interface{}` and
`map[string]interface{}` (the map modelled as an insertion-ordered
association list with unique keys, later duplicate keys replacing earlier
ones, matching Go map assignment). -/
inductive Json : Type where
  | null
  | bool (b : Bool)
  | num (mantissa : Int) (exponent : Int)
  | str (s : String)
  | arr (elems : List Json)
  | obj (members : List (String × Json))

def isDigitChar (c : Char) : Bool := 48 ≤ c.toNat && c.toNat ≤ 57

def hexVal (c : Char) : Option Nat :=
  if 48 ≤ c.toNat && c.toNat ≤ 57 then some (c.toNat - 48)
  else if 97 ≤ c.toNat && c.toNat ≤ 102 then some (c.toNat - 87)
  else if 65 ≤ c.toNat && c.toNat ≤ 70 then some (c.toNat - 55)
  else none

/-- JSON insignificant whitespace (space, tab, newline, carriage return). -/
def skipWs : List Char → List Char
  | c :: rest =>
    if c == ' ' || c == '\t' || c == '\n' || c == '\r' then skipWs rest
    else c :: rest
  | [] => []

/-- Maximal run of decimal digits. -/
def takeDigits : List Char → List Char × List Char
  | [] => ([], [])
  | c :: rest =>
    if isDigitChar c then
      let (ds, r) := takeDigits rest
      (c :: ds, r)
    else ([], c :: rest)

def digitsToNat (acc : Nat) : List Char → Nat
  | [] => acc
  | c :: rest => digitsToNat (acc * 10 + (c.toNat - 48)) rest

/-- Parse a JSON number (RFC 8259 grammar: optional minus, integer part
with no leading zero, optional fraction, optional exponent), returning the
exact decimal value and the unconsumed input. -/
def parseNumber (cs : List Char) : Except Err (Json × List Char) :=
  let (neg, cs₁) := match cs with
    | '-' :: r => (true, r)
    | _ => (false, cs)
  let intPart : Except Err (List Char × List Char) := match cs₁ with
    | '0' :: r => .ok (['0'], r)
    | c :: r =>
      if isDigitChar c then
        let (ds, r₂) := takeDigits r
        .ok (c :: ds, r₂)
      else .error (.jsonError "invalid number syntax")
    | [] => .error (.jsonError "invalid number syntax")
  match intPart with
  | .error e => .error e
  | .ok (intDs, rest₁) =>
    let fracPart : Except Err (List Char × List Char) := match rest₁ with
      | '.' :: r =>
        let (ds, r₂) := takeDigits r
        if ds.isEmpty then .error (.jsonError "invalid number syntax")
        else .ok (ds, r₂)
      | _ => .ok ([], rest₁)
    match fracPart with
    | .error e => .error e
    | .ok (fracDs, rest₂) =>
      let expPart : Except Err (Int × List Char) := match rest₂ with
        | 'e' :: r | 'E' :: r =>
          let (esign, r₂) : Bool × List Char := match r with
            | '-' :: r₃ => (true, r₃)
            | '+' :: r₃ => (false, r₃)
            | _ => (false, r)
          let (ds, r₃) := takeDigits r₂
          if ds.isEmpty then .error (.jsonError "invalid number syntax")
          else
            let e : Int := Int.ofNat (digitsToNat 0 ds)
            .ok (if esign then -e else e, r₃)
        | _ => .ok (0, rest₂)
      match expPart with
      | .error e => .error e
      | .ok (expVal, rest₃) =>
        let mag : Int := Int.ofNat (digitsToNat (digitsToNat 0 intDs) fracDs)
        let mant := if neg then -mag else mag
        .ok (.num mant (expVal - Int.ofNat fracDs.length), rest₃)

/-- Parse the body of a JSON string after the opening quote: plain
characters, the short escapes, and `\uXXXX` with surrogate-pair combining
(a lone surrogate decodes to U+FFFD, as in `encoding/json`).  Fuelled
recursion (each step consumes at least one character, so fuel equal to
the input length plus one can never run out). -/
def parseStringBody : Nat → List Char → Except Err (List Char × List Char)
  | 0, _ => .error (.jsonError "string body exhausts fuel")
  | _ + 1, [] => .error (.jsonError "unexpected end of string literal")
  | _ + 1, '"' :: rest => .ok ([], rest)
  | fuel + 1, '\\' :: 'u' :: h₁ :: h₂ :: h₃ :: h₄ :: r =>
    (match hexVal h₁, hexVal h₂, hexVal h₃, hexVal h₄ with
     | some a, some b, some c, some d =>
       let n := ((a * 16 + b) * 16 + c) * 16 + d
       if 0xD800 ≤ n && n ≤ 0xDBFF then
         match r with
         | '\\' :: 'u' :: g₁ :: g₂ :: g₃ :: g₄ :: r₂ =>
           (match hexVal g₁, hexVal g₂, hexVal g₃, hexVal g₄ with
            | some a₂, some b₂, some c₂, some d₂ =>
              let m := ((a₂ * 16 + b₂) * 16 + c₂) * 16 + d₂
              if 0xDC00 ≤ m && m ≤ 0xDFFF then do
                let (s, r₃) ← parseStringBody fuel r₂
                .ok (Char.ofNat (0x10000 + (n - 0xD800) * 0x400 + (m - 0xDC00)) :: s, r₃)
              else do
                let (s, r₃) ← parseStringBody fuel r
                .ok (Char.ofNat 0xFFFD :: s, r₃)
            | _, _, _, _ => do
              let (s, r₃) ← parseStringBody fuel r
              .ok (Char.ofNat 0xFFFD :: s, r₃))
         | _ => do
           let (s, r₃) ← parseStringBody fuel r
           .ok (Char.ofNat 0xFFFD :: s, r₃)
       else if 0xDC00 ≤ n && n ≤ 0xDFFF then do
         let (s, r₃) ← parseStringBody fuel r
         .ok (Char.ofNat 0xFFFD :: s, r₃)
       else do
         let (s, r₃) ← parseStringBody fuel r
         .ok (Char.ofNat n :: s, r₃)
     | _, _, _, _ => .error (.jsonError "invalid hexadecimal escape"))
  | fuel + 1, '\\' :: c :: r =>
    (match c with
     | '"' => (do let (s, r₂) ← parseStringBody fuel r; .ok ('"' :: s, r₂))
     | '\\' => (do let (s, r₂) ← parseStringBody fuel r; .ok ('\\' :: s, r₂))
     | '/' => (do let (s, r₂) ← parseStringBody fuel r; .ok ('/' :: s, r₂))
     | 'b' => (do let (s, r₂) ← parseStringBody fuel r; .ok (Char.ofNat 8 :: s, r₂))
     | 'f' => (do let (s, r₂) ← parseStringBody fuel r; .ok (Char.ofNat 12 :: s, r₂))
     | 'n' => (do let (s, r₂) ← parseStringBody fuel r; .ok ('\n' :: s, r₂))
     | 'r' => (do let (s, r₂) ← parseStringBody fuel r; .ok ('\r' :: s, r₂))
     | 't' => (do let (s, r₂) ← parseStringBody fuel r; .ok ('\t' :: s, r₂))
     | _ => .error (.jsonError "invalid escape character"))
  | _ + 1, '\\' :: [] => .error (.jsonError "unexpected end of string literal")
  | fuel + 1, c :: rest =>
    if c.toNat < 32 then .error (.jsonError "control character in string literal")
    else do
      let (s, r) ← parseStringBody fuel rest
      .ok (c :: s, r)

/-- Go map assignment `m[k] = v` on an association list: replace the
binding in place if the key exists, append otherwise. -/
def upsert (k : String) (v : Json) : List (String × Json) → List (String × Json)
  | [] => [(k, v)]
  | (k₂, v₂) :: rest =>
    if k₂ == k then (k, v) :: rest else (k₂, v₂) :: upsert k v rest

mutual
/-- Parse one JSON value (fuelled recursion; `jsonUnmarshal` supplies fuel
larger than any possible chain of recursive calls on its input). -/
def parseValue : Nat → List Char → Except Err (Json × List Char)
  | 0, _ => .error (.jsonError "value nesting exhausts fuel")
  | fuel + 1, cs =>
    match skipWs cs with
    | [] => .error (.jsonError "unexpected end of JSON input")
    | 'n' :: 'u' :: 'l' :: 'l' :: rest => .ok (.null, rest)
    | 't' :: 'r' :: 'u' :: 'e' :: rest => .ok (.bool true, rest)
    | 'f' :: 'a' :: 'l' :: 's' :: 'e' :: rest => .ok (.bool false, rest)
    | '"' :: rest => do
      let (s, r) ← parseStringBody (rest.length + 1) rest
      .ok (.str (String.mk s), r)
    | '[' :: rest =>
      (match skipWs rest with
       | ']' :: r => .ok (.arr [], r)
       | r => do
         let (xs, r₂) ← parseElems fuel r
         .ok (.arr xs, r₂))
    | '{' :: rest =>
      (match skipWs rest with
       | '}' :: r => .ok (.obj [], r)
       | r => do
         let (kvs, r₂) ← parseMembers fuel r
         .ok (.obj (kvs.foldl (fun acc p => upsert p.1 p.2 acc) []), r₂))
    | c :: rest =>
      if c == '-' || isDigitChar c then parseNumber (c :: rest)
      else .error (.jsonError "invalid character at start of value")

/-- Parse the elements of a non-empty JSON array (position: after `[` and
any leading whitespace). -/
def parseElems : Nat → List Char → Except Err (List Json × List Char)
  | 0, _ => .error (.jsonError "value nesting exhausts fuel")
  | fuel + 1, cs => do
    let (v, r) ← parseValue fuel cs
    match skipWs r with
    | ',' :: r₂ => do
      let (xs, r₃) ← parseElems fuel r₂
      .ok (v :: xs, r₃)
    | ']' :: r₂ => .ok ([v], r₂)
    | _ => .error (.jsonError "invalid character in array")

/-- Parse the members of a non-empty JSON object (position: after `{` and
any leading whitespace), in textual order. -/
def parseMembers : Nat → List Char → Except Err (List (String × Json) × List Char)
  | 0, _ => .error (.jsonError "value nesting exhausts fuel")
  | fuel + 1, cs =>
    match skipWs cs with
    | '"' :: rest => do
      let (k, r) ← parseStringBody (rest.length + 1) rest
      match skipWs r with
      | ':' :: r₂ => do
        let (v, r₃) ← parseValue fuel r₂
        match skipWs r₃ with
        | ',' :: r₄ => do
          let (kvs, r₅) ← parseMembers fuel r₄
          .ok ((String.mk k, v) :: kvs, r₅)
        | '}' :: r₄ => .ok ([(String.mk k, v)], r₄)
        | _ => .error (.jsonError "invalid character in object")
      | _ => .error (.jsonError "expected colon after object key")
    | _ => .error (.jsonError "expected object key")
end

/-- Model of `encoding/json.Unmarshal` into `interface{}`: parse one JSON
value, then require only whitespace to remain.  Each recursive call in
the parser consumes input or is charged against an already-consumed
character, so `2·|input| + 4` fuel can never run out. -/
def jsonUnmarshal (s : String) : Except Err Json :=
  match parseValue (2 * s.data.length + 4) s.data with
  | .error e => .error e
  | .ok (v, rest) =>
    if (skipWs rest).isEmpty then .ok v
    else .error (.jsonError "invalid character after top-level value")

/-- Model of `strconv.Atoi`: optional sign, one or more decimal digits,
nothing else, result within the 64-bit `int` range. -/
def strconvAtoi (s : String) : Except Err Int :=
  let core : Bool → List Char → Except Err Int := fun neg ds =>
    if ds.isEmpty || !(ds.all isDigitChar) then .error (.atoiError s)
    else
      let n : Int := Int.ofNat (digitsToNat 0 ds)
      let v := if neg then -n else n
      if v < -(2 ^ 63) || 2 ^ 63 - 1 < v then .error (.atoiError s)
      else .ok v
  match s.data with
  | '+' :: ds => core false ds
  | '-' :: ds => core true ds
  | ds => core false ds

/-- The shape of one `Schema` node, parameterised by the type of child
schemas.  Field names and order follow the Go `Schema` struct.  Go
pointer/slice/map/interface fields are `nil`able and distinguish "unset"
from any set value, so they become `Option`s (`none` = `nil`, the value
the JSON encoder's `omitempty` drops); `Type`, `Description`, `Format`,
`Pattern` (plain `string`), `MultipleOf` (plain `int`) and `UniqueItems`
(plain `bool`) keep their Go zero values as defaults.  Field names follow
the Go struct; only Go's `Type` is written `type`, because `Type` is
reserved in Lean. -/
structure SchemaF (α : Type) : Type where
  type : String := ""
  Description : String := ""
  Items : Option α := none
  Properties : Option (List (String × α)) := none
  Required : Option (List String) := none
  Format : String := ""
  Enum : Option (List Json) := none
  Default : Option Json := none
  Example : Option Json := none
  Minimum : Option Int := none
  ExclusiveMinimum : Option Int := none
  Maximum : Option Int := none
  ExclusiveMaximum : Option Int := none
  MultipleOf : Int := 0
  MinLength : Option Int := none
  MaxLength : Option Int := none
  Pattern : String := ""
  MinItems : Option Int := none
  MaxItems : Option Int := none
  UniqueItems : Bool := false
  MinProperties : Option Int := none
  MaxProperties : Option Int := none

/-- The `Schema` struct of the source (tied recursively through `Items`
and `Properties`). -/
inductive Schema : Type where
  | mk (node : SchemaF Schema)

/-- Projection to the field record of a schema node. -/
def Schema.node : Schema → SchemaF Schema
  | .mk n => n

/-- `getTagValue` from the source: return a value of the schema's type
for the given tag string — the string itself if the schema has string
type, otherwise whatever `json.Unmarshal` parses from it. -/
def getTagValue (s : Schema) (value : String) : Except Err Json :=
  if s.node.type == "string" then .ok (.str value)
  else jsonUnmarshal value

/-- `reflect.StructTag.Lookup`: the tag value under a key, if present. -/
def tagLookup (tag : Tag) (key : String) : Option String :=
  (tag.find? (fun p => p.1 == key)).map (fun p => p.2)

/-- `reflect.StructTag.Get`: like `Lookup` but yielding `""` when the key
is absent. -/
def tagGet (tag : Tag) (key : String) : String :=
  (tagLookup tag key).getD ""

/-- `strings.Split` at a single-character separator: the list of
substrings between occurrences of the separator (never empty — splitting
the empty string yields `[""]`, as in Go). -/
def splitChars (sep : Char) : List Char → List (List Char)
  | [] => [[]]
  | c :: rest =>
    let r := splitChars sep rest
    if c == sep then [] :: r
    else
      match r with
      | [] => [[c]]
      | h :: t => (c :: h) :: t

/-- `strings.Split(s, sep)` for a one-character `sep`. -/
def stringsSplit (s : String) (sep : Char) : List String :=
  (splitChars sep s.data).map (fun l => String.mk l)

/-- The property-name computation of the source's field loop:
`jsonTags := strings.Split(f.Tag.Get("json"), ","); name := f.Name;
if len(jsonTags) > 0 { name = jsonTags[0] }`.  (The `len > 0` guard is
kept even though `strings.Split` never returns an empty slice.) -/
def fieldPropName (fname : String) (tag : Tag) : String :=
  let jsonTags := stringsSplit (tagGet tag "json") ','
  if 0 < jsonTags.length then jsonTags.headD fname else fname

/-- The optionality computation of the source's field loop: some entry
after the first of the comma-split `json` tag equals `"omitempty"`. -/
def fieldOptional (tag : Tag) : Bool :=
  (stringsSplit (tagGet tag "json") ',').tail.any (fun t => t == "omitempty")

/-- Set a schema node field through the wrapper. -/
def Schema.upd (s : Schema) (f : SchemaF Schema → SchemaF Schema) : Schema :=
  .mk (f s.node)

/-- One integer-valued constraint tag: absent leaves the schema alone,
present goes through `strconv.Atoi` and stores the result (errors
propagate). -/
def applyIntTag (tag : Tag) (key : String) (s : Schema)
    (set : SchemaF Schema → Int → SchemaF Schema) : Except Err Schema :=
  match tagLookup tag key with
  | none => .ok s
  | some t => do
    let n ← strconvAtoi t
    .ok (.mk (set s.node n))

/-- The tag-application part of the source's field loop, in source order:
`description`, `format`, `enum`, `default`, `example`, `minimum`,
`exclusiveMinimum`, `maximum`, `exclusiveMaximum`, `multipleOf`,
`minLength`, `maxLength`, `pattern`, `minItems`, `maxItems`,
`uniqueItems`, `minProperties`, `maxProperties`. -/
def applyFieldTags (tag : Tag) (s : Schema) : Except Err Schema := do
  let s := match tagLookup tag "description" with
    | some t => s.upd (fun n => { n with Description := t })
    | none => s
  let s := match tagLookup tag "format" with
    | some t => s.upd (fun n => { n with Format := t })
    | none => s
  let s ← match tagLookup tag "enum" with
    | some t => do
      let vs ← (stringsSplit t ',').mapM (fun v => getTagValue s v)
      pure (s.upd (fun n => { n with Enum := some vs }))
    | none => pure s
  let s ← match tagLookup tag "default" with
    | some t => do
      let v ← getTagValue s t
      pure (s.upd (fun n => { n with Default := some v }))
    | none => pure s
  let s ← match tagLookup tag "example" with
    | some t => do
      let v ← getTagValue s t
      pure (s.upd (fun n => { n with Example := some v }))
    | none => pure s
  let s ← applyIntTag tag "minimum" s (fun n v => { n with Minimum := some v })
  let s ← applyIntTag tag "exclusiveMinimum" s (fun n v => { n with ExclusiveMinimum := some v })
  let s ← applyIntTag tag "maximum" s (fun n v => { n with Maximum := some v })
  let s ← applyIntTag tag "exclusiveMaximum" s (fun n v => { n with ExclusiveMaximum := some v })
  let s ← applyIntTag tag "multipleOf" s (fun n v => { n with MultipleOf := v })
  let s ← applyIntTag tag "minLength" s (fun n v => { n with MinLength := some v })
  let s ← applyIntTag tag "maxLength" s (fun n v => { n with MaxLength := some v })
  let s := match tagLookup tag "pattern" with
    | some t => s.upd (fun n => { n with Pattern := t })
    | none => s
  let s ← applyIntTag tag "minItems" s (fun n v => { n with MinItems := some v })
  let s ← applyIntTag tag "maxItems" s (fun n v => { n with MaxItems := some v })
  let s := match tagLookup tag "uniqueItems" with
    | some t => s.upd (fun n => { n with UniqueItems := t == "true" })
    | none => s
  let s ← applyIntTag tag "minProperties" s (fun n v => { n with MinProperties := some v })
  let s ← applyIntTag tag "maxProperties" s (fun n v => { n with MaxProperties := some v })
  pure s

/-- Go map assignment `properties[name] = s` on the association-list
model: replace in place if the key exists, append otherwise. -/
def insertProp : List (String × Schema) → String → Schema → List (String × Schema)
  | [], k, v => [(k, v)]
  | (k₂, v₂) :: rest, k, v =>
    if k₂ == k then (k, v) :: rest
    else (k₂, v₂) :: insertProp rest k v

mutual
/-- `GenerateSchema` from the source.  The `t == ipType` identity check
precedes the kind switch; inside the struct branch the `timeType` and
`uriType` identities are checked before the field walk.  (Here the
identity and kind checks collapse into one constructor match: `ipTy`,
`timeTy` and `uriTy` are the only types with those identities, and their
constructors determine their kinds.)  All remaining kinds follow the
source's `switch` arms; the final catch-all is its `default` branch. -/
def GenerateSchema : GoType → Except Err Schema
  | .ipTy => .ok (.mk { type := "string", Format := "ipv4" })
  | .timeTy => .ok (.mk { type := "string", Format := "date-time" })
  | .uriTy => .ok (.mk { type := "string", Format := "uri" })
  | .structTy fields => do
    let (props, req) ← walkFields fields [] []
    .ok (.mk { type := "object",
               Properties := if 0 < props.length then some props else none,
               Required := if 0 < req.length then some req else none })
  | .mapTy _ _ => .ok (.mk {})
  | .sliceTy elem => do
    let s ← GenerateSchema elem
    .ok (.mk { type := "array", Items := some s })
  | .arrayTy _ elem => do
    let s ← GenerateSchema elem
    .ok (.mk { type := "array", Items := some s })
  | .intTy | .int8Ty | .int16Ty | .int32Ty | .int64Ty =>
    .ok (.mk { type := "integer" })
  | .uintTy | .uint8Ty | .uint16Ty | .uint32Ty | .uint64Ty =>
    .ok (.mk { type := "integer", Minimum := some 0 })
  | .float32Ty | .float64Ty => .ok (.mk { type := "number" })
  | .boolTy => .ok (.mk { type := "boolean" })
  | .stringTy => .ok (.mk { type := "string" })
  | .ptrTy elem => GenerateSchema elem
  | t => .error (.unsupportedType t.kind t)

/-- The body of the source's `for i := 0; i < t.NumField(); i++` loop:
per field in declaration order, compute the property name, recurse on the
field type, apply the constraint tags, then record the property and (when
the field is not `omitempty`-marked) append the name to `required`.  Any
error aborts the whole walk. -/
def walkFields : Fields → List (String × Schema) → List String →
    Except Err (List (String × Schema) × List String)
  | .nil, props, req => .ok (props, req)
  | .cons fname tag fty rest, props, req => do
    let name := fieldPropName fname tag
    let s ← GenerateSchema fty
    let s ← applyFieldTags tag s
    let req := if fieldOptional tag then req else req ++ [name]
    walkFields rest (insertProp props name s) req
end

/-! Derived notions used to state and prove the claims. -/

/-- The kinds the source's `switch` has no arm for: they reach the
`default` branch. -/
def unsupportedKind : Kind → Bool
  | .func | .chan | .interface_ | .complex64 | .complex128 | .uintptr => true
  | _ => false

/-- The signed-integer kinds (`reflect.Int` … `reflect.Int64`). -/
def signedIntKind : Kind → Bool
  | .int | .int8 | .int16 | .int32 | .int64 => true
  | _ => false

/-- The unsigned-integer kinds (`reflect.Uint` … `reflect.Uint64`). -/
def unsignedIntKind : Kind → Bool
  | .uint | .uint8 | .uint16 | .uint32 | .uint64 => true
  | _ => false

/-- Concatenation of field lists. -/
def Fields.append : Fields → Fields → Fields
  | .nil, gs => gs
  | .cons n t ty rest, gs => .cons n t ty (Fields.append rest gs)

/-- The complete processing of one struct field — the recursive call on
the field's type followed by tag application — which is exactly the part
of one loop iteration that can fail. -/
def fieldStep (tag : Tag) (ty : GoType) : Except Err Schema := do
  let s ← GenerateSchema ty
  applyFieldTags tag s

/-- Every field of the list processes without error. -/
def fieldsAllOk : Fields → Bool
  | .nil => true
  | .cons _ tag ty rest => (fieldStep tag ty).isOk && fieldsAllOk rest

/-- The property names of the fields lacking the `omitempty` marker, in
declaration order. -/
def requiredNames : Fields → List String
  | .nil => []
  | .cons n tag _ rest =>
    if fieldOptional tag then requiredNames rest
    else fieldPropName n tag :: requiredNames rest

/-! Helper lemmas. -/

theorem except_bind_ok {α β : Type} (a : α) (f : α → Except Err β) :
    ((Except.ok a : Except Err α) >>= f) = f a := rfl

theorem except_bind_error {α β : Type} (e : Err) (f : α → Except Err β) :
    ((Except.error e : Except Err α) >>= f) = .error e := rfl

theorem splitChars_length_pos (sep : Char) (cs : List Char) :
    0 < (splitChars sep cs).length := by
  match cs with
  | [] => simp [splitChars]
  | c :: rest =>
    have ih := splitChars_length_pos sep rest
    simp only [splitChars]
    by_cases h : c == sep
    · simp [h]
    · simp only [h]
      cases hr : splitChars sep rest with
      | nil => simp
      | cons a b => simp

theorem stringsSplit_length_pos (s : String) (sep : Char) :
    0 < (stringsSplit s sep).length := by
  simpa [stringsSplit] using splitChars_length_pos sep s.data

theorem fieldStep_ok_parts (tag : Tag) (ty : GoType) (s : Schema)
    (h : fieldStep tag ty = .ok s) :
    ∃ b, GenerateSchema ty = .ok b ∧ applyFieldTags tag b = .ok s := by
  unfold fieldStep at h
  cases hg : GenerateSchema ty with
  | error e =>
    rw [hg, except_bind_error] at h
    exact absurd h (by simp)
  | ok b =>
    rw [hg, except_bind_ok] at h
    exact ⟨b, rfl, h⟩

theorem walkFields_cons_error (n : String) (tag : Tag) (ty : GoType) (rest : Fields)
    (e : Err) (h : fieldStep tag ty = .error e) (props : List (String × Schema))
    (req : List String) : walkFields (.cons n tag ty rest) props req = .error e := by
  unfold fieldStep at h
  simp only [walkFields]
  cases hg : GenerateSchema ty with
  | error e₂ =>
    rw [hg, except_bind_error] at h
    injection h with he
    rw [except_bind_error, he]
  | ok b =>
    rw [hg, except_bind_ok] at h
    rw [except_bind_ok, h, except_bind_error]

theorem walkFields_required (fl : Fields) :
    ∀ props req props₂ req₂, walkFields fl props req = .ok (props₂, req₂) →
      req₂ = req ++ requiredNames fl := by
  match fl with
  | .nil =>
    intro props req props₂ req₂ h
    simp only [walkFields] at h
    cases h
    simp [requiredNames]
  | .cons fname tag fty rest =>
    intro props req props₂ req₂ h
    simp only [walkFields] at h
    cases hg : GenerateSchema fty with
    | error e =>
      rw [hg, except_bind_error] at h
      exact absurd h (by simp)
    | ok b =>
      rw [hg, except_bind_ok] at h
      cases ha : applyFieldTags tag b with
      | error e =>
        rw [ha, except_bind_error] at h
        exact absurd h (by simp)
      | ok s =>
        rw [ha, except_bind_ok] at h
        have ih := walkFields_required rest _ _ _ _ h
        by_cases hopt : fieldOptional tag
        · simp only [hopt, if_true] at ih
          simp [requiredNames, hopt, ih]
        · simp only [hopt, if_false] at ih
          simp [requiredNames, hopt, ih]

theorem walkFields_append_ok (fl₁ : Fields) :
    ∀ (fl₂ : Fields) (props : List (String × Schema)) (req : List String),
      fieldsAllOk fl₁ = true →
      ∃ props₂ req₂, walkFields (Fields.append fl₁ fl₂) props req = walkFields fl₂ props₂ req₂ := by
  match fl₁ with
  | .nil =>
    intro fl₂ props req _
    exact ⟨props, req, rfl⟩
  | .cons fname tag fty rest =>
    intro fl₂ props req hok
    simp only [fieldsAllOk, Bool.and_eq_true] at hok
    obtain ⟨hstep, hrest⟩ := hok
    obtain ⟨s, hs⟩ : ∃ s, fieldStep tag fty = .ok s := by
      cases hfs : fieldStep tag fty with
      | error e => rw [hfs] at hstep; simp [Except.isOk, Except.toBool] at hstep
      | ok s => exact ⟨s, rfl⟩
    obtain ⟨b, hg, ha⟩ := fieldStep_ok_parts tag fty s hs
    simp only [Fields.append, walkFields]
    rw [hg, except_bind_ok, ha, except_bind_ok]
    exact walkFields_append_ok rest fl₂ _ _ hrest

/-! The claims. -/

/-- C1 (code bug): the claim — and the source's own dead fallback `name :=
f.Name` — say a field without a `json` tag keeps its declared name as
property name; but `strings.Split` never returns an empty slice, so the
`len(jsonTags) > 0` guard is always true and such a field's property name
is the empty string.  First conjunct: the guard is universally true;
remaining conjuncts evaluate the failing input `struct { Name string }`,
whose property key and required entry come out `""`, not `"Name"`. -/
theorem missing_json_tag_yields_empty_name :
    (∀ tag : Tag, 0 < (stringsSplit (tagGet tag "json") ',').length)
    ∧ fieldPropName "Name" [] = ""
    ∧ GenerateSchema (.structTy (.cons "Name" [] .stringTy .nil)) =
        .ok (.mk { type := "object",
                   Properties := some [("", .mk { type := "string" })],
                   Required := some [""] }) :=
  ⟨fun _ => stringsSplit_length_pos _ _, rfl, rfl⟩

/-- C3: every type of unsigned-integer kind yields exactly
`{type: integer, minimum: 0}` and every type of signed-integer kind yields
exactly `{type: integer}` — no other schema field is set in either case. -/
theorem integer_kind_schemas :
    ∀ t : GoType,
      (unsignedIntKind t.kind = true →
        GenerateSchema t = .ok (.mk { type := "integer", Minimum := some 0 }))
      ∧ (signedIntKind t.kind = true →
        GenerateSchema t = .ok (.mk { type := "integer" })) := by
  intro t
  refine ⟨fun h => ?_, fun h => ?_⟩ <;>
    cases t <;> first | rfl | simp [GoType.kind, unsignedIntKind, signedIntKind] at h

/-- Witness for C3 at `uint8` and `int`. -/
theorem integer_kind_schemas_witness :
    GenerateSchema .uint8Ty = .ok (.mk { type := "integer", Minimum := some 0 })
    ∧ GenerateSchema .intTy = .ok (.mk { type := "integer" }) :=
  ⟨(integer_kind_schemas .uint8Ty).1 rfl, (integer_kind_schemas .intTy).2 rfl⟩

/-- C4: `GenerateSchema` on pointer-to-T returns a schema identical to
`GenerateSchema` on T itself, for every type T — pointer wrapping adds no
nullability marker and changes nothing. -/
theorem pointer_is_transparent :
    ∀ t : GoType, GenerateSchema (.ptrTy t) = GenerateSchema t :=
  fun _ => rfl

/-- C6: the IP-address identity is checked before kind dispatch — `net.IP`
has slice kind, yet yields `{type: string, format: ipv4}` rather than the
array schema that plain slice dispatch produces (shown on `[]byte`) —
while the timestamp and URI overrides apply to the struct-kind types
`time.Time` and `url.URL`, yielding `date-time` and `uri` formats. -/
theorem special_type_dispatch :
    GoType.kind .ipTy = .slice
    ∧ GenerateSchema .ipTy = .ok (.mk { type := "string", Format := "ipv4" })
    ∧ GenerateSchema (.sliceTy .uint8Ty) =
        .ok (.mk { type := "array",
                   Items := some (.mk { type := "integer", Minimum := some 0 }) })
    ∧ GoType.kind .timeTy = .struct
    ∧ GenerateSchema .timeTy = .ok (.mk { type := "string", Format := "date-time" })
    ∧ GoType.kind .uriTy = .struct
    ∧ GenerateSchema .uriTy = .ok (.mk { type := "string", Format := "uri" }) :=
  ⟨rfl, rfl, rfl, rfl, rfl, rfl, rfl⟩

/-- C7: every map-kind type produces an empty `Schema` — no `type`, no
other field populated (the map placeholder) — and the call succeeds. -/
theorem map_kind_placeholder :
    ∀ key elem : GoType, GenerateSchema (.mapTy key elem) = .ok (.mk {}) :=
  fun _ _ => rfl

/-- C10: the byte-slice type `[]byte` produces
`{type: array, items: {type: integer, minimum: 0}}` — no string/base64
special treatment, even though `byteSliceType` is declared alongside the
special type identities (it is not the `net.IP` identity). -/
theorem byte_slice_plain_array :
    GenerateSchema byteSliceType =
      .ok (.mk { type := "array",
                 Items := some (.mk { type := "integer", Minimum := some 0 }) })
    ∧ byteSliceType ≠ .ipTy :=
  ⟨rfl, by simp [byteSliceType]⟩

/-- C2 (counterexample): with fields `A string json:"n,omitempty"` and
`B string json:"n"`, field A carries the omit-if-empty marker yet its
property name `"n"` appears in `required` (contributed by B) — refuting
the claim's "omits the name of every field carrying it". -/
theorem marked_name_still_in_required :
    fieldOptional [("json", "n,omitempty")] = true
    ∧ fieldPropName "A" [("json", "n,omitempty")] = "n"
    ∧ GenerateSchema (.structTy (.cons "A" [("json", "n,omitempty")] .stringTy
          (.cons "B" [("json", "n")] .stringTy .nil))) =
        .ok (.mk { type := "object",
                   Properties := some [("n", .mk { type := "string" })],
                   Required := some ["n"] }) :=
  ⟨rfl, rfl, rfl⟩

/-- C2 (amended): for every struct type, `required` is exactly the
sequence of property names of the fields lacking the omit-if-empty
marker, in declaration order — so a marker-carrying field's name is
omitted unless an unmarked field shares it — and when no field lacks the
marker, `required` is absent entirely, not present as an empty
sequence. -/
theorem required_exactly_unmarked_names :
    ∀ (fl : Fields) (s : Schema), GenerateSchema (.structTy fl) = .ok s →
      s.node.Required =
        if requiredNames fl = [] then none else some (requiredNames fl) := by
  intro fl s h
  simp only [GenerateSchema] at h
  cases hw : walkFields fl [] [] with
  | error e =>
    rw [hw, except_bind_error] at h
    exact absurd h (by simp)
  | ok pr =>
    obtain ⟨props, req⟩ := pr
    rw [hw, except_bind_ok] at h
    have hreq := walkFields_required fl [] [] props req hw
    simp only [List.nil_append] at hreq
    subst hreq
    cases h
    simp only [Schema.node]
    by_cases hn : requiredNames fl = []
    · simp [hn]
    · have hpos : 0 < (requiredNames fl).length := List.length_pos.mpr hn
      simp [hn, hpos]

/-- Witness for C2 (amended): a struct with one `omitempty` field `a` and
one plain field `b`, whose `required` is exactly `["b"]`. -/
theorem required_exactly_unmarked_names_witness :
    (Schema.mk { type := "object",
                 Properties := some [("a", .mk { type := "string" }),
                                     ("b", .mk { type := "integer" })],
                 Required := some ["b"] }).node.Required =
      (if requiredNames (.cons "A" [("json", "a,omitempty")] .stringTy
            (.cons "B" [("json", "b")] .intTy .nil)) = [] then none
       else some (requiredNames (.cons "A" [("json", "a,omitempty")] .stringTy
            (.cons "B" [("json", "b")] .intTy .nil)))) :=
  required_exactly_unmarked_names
    (.cons "A" [("json", "a,omitempty")] .stringTy
      (.cons "B" [("json", "b")] .intTy .nil)) _ rfl

/-- C5: tag-value coercion returns the raw tag text unchanged (always
succeeding) when the schema's type is `string`, and for any other schema
type equals generic JSON-literal parsing of the text, failing exactly
when that parsing fails; an `enum` tag `"a,b,c"` on a string field yields
`["a","b","c"]`, `"1,2,3"` on an integer field yields the numbers
`[1,2,3]`, and an invalid element (`"a"` on an integer field) fails the
whole `GenerateSchema` call. -/
theorem tag_value_coercion :
    (∀ (s : Schema) (v : String), s.node.type = "string" →
      getTagValue s v = .ok (.str v))
    ∧ (∀ (s : Schema) (v : String), s.node.type ≠ "string" →
      getTagValue s v = jsonUnmarshal v)
    ∧ GenerateSchema (.structTy (.cons "F" [("json", "f"), ("enum", "a,b,c")] .stringTy .nil)) =
        .ok (.mk { type := "object",
                   Properties := some
                     [("f", .mk { type := "string", Enum := some [.str "a", .str "b", .str "c"] })],
                   Required := some ["f"] })
    ∧ GenerateSchema (.structTy (.cons "N" [("json", "n"), ("enum", "1,2,3")] .intTy .nil)) =
        .ok (.mk { type := "object",
                   Properties := some
                     [("n", .mk { type := "integer", Enum := some [.num 1 0, .num 2 0, .num 3 0] })],
                   Required := some ["n"] })
    ∧ GenerateSchema (.structTy (.cons "N" [("json", "n"), ("enum", "a,b,c")] .intTy .nil)) =
        .error (.jsonError "invalid character at start of value") := by
  refine ⟨fun s v h => ?_, fun s v h => ?_, rfl, rfl, rfl⟩
  · simp [getTagValue, h]
  · simp [getTagValue, beq_iff_eq, h]

/-- Witness for C5: the string-type passthrough at a concrete schema and
value, and the non-string case at a concrete integer schema. -/
theorem tag_value_coercion_witness :
    getTagValue (.mk { type := "string" }) "x" = .ok (.str "x")
    ∧ getTagValue (.mk { type := "integer" }) "5" = jsonUnmarshal "5" :=
  ⟨tag_value_coercion.1 (.mk { type := "string" }) "x" rfl,
   tag_value_coercion.2.1 (.mk { type := "integer" }) "5" (by decide)⟩

/-- C8: `GenerateSchema` is fail-fast and atomic — an unsupported kind
yields the unsupported-type error identifying both the kind and the
owning type; the first failing field of a struct walk (a failing
recursion or tag application) aborts the whole call with exactly that
error, whatever fields follow; and errors propagate unchanged through
slice, array and pointer wrappers.  The result type admits no partial
schema alongside an error. -/
theorem generate_schema_fail_fast :
    (∀ t : GoType, unsupportedKind t.kind = true →
      GenerateSchema t = .error (.unsupportedType t.kind t))
    ∧ (∀ (fl₁ : Fields) (n : String) (tag : Tag) (ty : GoType) (fl₂ : Fields) (e : Err),
      fieldsAllOk fl₁ = true → fieldStep tag ty = .error e →
      GenerateSchema (.structTy (Fields.append fl₁ (.cons n tag ty fl₂))) = .error e)
    ∧ (∀ (t : GoType) (len : Nat) (e : Err), GenerateSchema t = .error e →
      GenerateSchema (.sliceTy t) = .error e
      ∧ GenerateSchema (.arrayTy len t) = .error e
      ∧ GenerateSchema (.ptrTy t) = .error e) := by
  refine ⟨?_, ?_, ?_⟩
  · intro t h
    cases t <;> first | rfl | simp [GoType.kind, unsupportedKind] at h
  · intro fl₁ n tag ty fl₂ e hok hstep
    obtain ⟨props₂, req₂, hw⟩ := walkFields_append_ok fl₁ (.cons n tag ty fl₂) [] [] hok
    simp only [GenerateSchema]
    rw [hw, walkFields_cons_error n tag ty fl₂ e hstep props₂ req₂, except_bind_error]
  · intro t len e h
    refine ⟨?_, ?_, h⟩
    · simp only [GenerateSchema]
      rw [h, except_bind_error]
    · simp only [GenerateSchema]
      rw [h, except_bind_error]

/-- Witness for C8: a function type fails naming its kind; a struct whose
second field has a malformed `minimum` tag fails with that tag's parse
error even though its third field would fail differently; a slice of a
function type fails with the element's error. -/
theorem generate_schema_fail_fast_witness :
    GenerateSchema .funcTy = .error (.unsupportedType .func .funcTy)
    ∧ GenerateSchema (.structTy (.cons "A" [("json", "a")] .stringTy
        (.cons "B" [("json", "b"), ("minimum", "abc")] .intTy
          (.cons "C" [("json", "c"), ("enum", "x")] .intTy .nil)))) =
        .error (.atoiError "abc")
    ∧ GenerateSchema (.sliceTy .funcTy) = .error (.unsupportedType .func .funcTy) :=
  ⟨generate_schema_fail_fast.1 .funcTy rfl,
   generate_schema_fail_fast.2.1 (.cons "A" [("json", "a")] .stringTy .nil)
     "B" [("json", "b"), ("minimum", "abc")] .intTy
     (.cons "C" [("json", "c"), ("enum", "x")] .intTy .nil)
     (.atoiError "abc") rfl rfl,
   (generate_schema_fail_fast.2.2 .funcTy 0 (.unsupportedType .func .funcTy)
     (generate_schema_fail_fast.1 .funcTy rfl)).1⟩

/-- C9: when two struct fields resolve to the same property name and
neither carries the omit-if-empty marker, `properties` holds a single
entry for that name — the later field's schema — while `required` lists
the name twice; the required sequence is not deduplicated against
property-name collisions. -/
theorem duplicate_property_name :
    ∀ (n₁ : String) (t₁ : Tag) (ty₁ : GoType) (n₂ : String) (t₂ : Tag) (ty₂ : GoType)
      (s₁ s₂ : Schema),
      fieldPropName n₁ t₁ = fieldPropName n₂ t₂ →
      fieldOptional t₁ = false → fieldOptional t₂ = false →
      fieldStep t₁ ty₁ = .ok s₁ → fieldStep t₂ ty₂ = .ok s₂ →
      GenerateSchema (.structTy (.cons n₁ t₁ ty₁ (.cons n₂ t₂ ty₂ .nil))) =
        .ok (.mk { type := "object",
                   Properties := some [(fieldPropName n₂ t₂, s₂)],
                   Required := some [fieldPropName n₁ t₁, fieldPropName n₂ t₂] }) := by
  intro n₁ t₁ ty₁ n₂ t₂ ty₂ s₁ s₂ hname ho₁ ho₂ h₁ h₂
  obtain ⟨b₁, hg₁, ha₁⟩ := fieldStep_ok_parts t₁ ty₁ s₁ h₁
  obtain ⟨b₂, hg₂, ha₂⟩ := fieldStep_ok_parts t₂ ty₂ s₂ h₂
  simp only [GenerateSchema, walkFields]
  rw [hg₁, except_bind_ok, ha₁, except_bind_ok]
  rw [hg₂, except_bind_ok, ha₂, except_bind_ok]
  simp [insertProp, walkFields, ho₁, ho₂, hname, except_bind_ok]

/-- Witness for C9: fields `A string json:"n"` and `B int json:"n"` give a
single property `n` with the integer schema and `required = ["n","n"]`. -/
theorem duplicate_property_name_witness :
    GenerateSchema (.structTy (.cons "A" [("json", "n")] .stringTy
        (.cons "B" [("json", "n")] .intTy .nil))) =
      .ok (.mk { type := "object",
                 Properties := some [("n", .mk { type := "integer" })],
                 Required := some ["n", "n"] }) :=
  duplicate_property_name "A" [("json", "n")] .stringTy "B" [("json", "n")] .intTy
    (.mk { type := "string" }) (.mk { type := "integer" }) rfl rfl rfl rfl rfl

end Huma
